import Mathlib

/-!
# Verification of the sale-search tracker core

Shallow embedding of the shoe-sale tracker (price parsing, listing
filtering, the Dick's listing parser, the SQLite-backed catalog and the
orchestration cycle) together with proofs about the embedded definitions.

Python `Optional` values are modelled with `Option`; Python truthiness
(`if x:` treating `None`, `0.0` and `""` as false) is modelled explicitly
by the `py*` helpers.  Prices are modelled as exact rationals.
-/

set_option maxRecDepth 4000

namespace SaleSearch

/-! ## Pythonic truthiness helpers -/

/-- Truthiness of an optional string: `None` and `""` are falsy. -/
def pyS : Option String → Bool
  | none => false
  | some s => !(s == "")

/-- Truthiness of an optional number: `None` and `0.0` are falsy. -/
def pyQ : Option ℚ → Bool
  | none => false
  | some q => !(q == 0)

/-- Python `a or b` on optional strings: first truthy operand, else `b`. -/
def pyOrS (a b : Option String) : Option String :=
  if pyS a then a else b

/-! ## Character/list utilities shared by the embedding -/

/-- Numeric value of a list of decimal digit characters (most significant
first), as produced by Python `float` on the integer part of a numeral. -/
def natOfDigits : List Char → ℕ
  | [] => 0
  | c :: rest => (c.toNat - 48) * 10 ^ rest.length + natOfDigits rest

/-- Python `str.split(sep)` on a single-character separator. -/
def splitOnChar (sep : Char) : List Char → List (List Char)
  | [] => [[]]
  | c :: rest =>
    let r := splitOnChar sep rest
    if c = sep then [] :: r
    else (c :: r.headD []) :: r.tail

/-! ## PriceParser: `BaseScraper.extract_price` -/

/-- `(maximal digit prefix, remainder)` of a character list. -/
def takeDigits : List Char → List Char × List Char
  | [] => ([], [])
  | c :: rest =>
    if c.isDigit then
      let p := takeDigits rest
      (c :: p.1, p.2)
    else ([], c :: rest)

/-- Python `float(s)` restricted to strings of digits and dots (the only
alphabet that can reach it in `extract_price` after stripping): an optional
integer part, an optional `.` plus fractional part, at least one digit in
total.  Returns `none` exactly when `float` raises `ValueError`. -/
def parseFloat (cs : List Char) : Option ℚ :=
  match (takeDigits cs).2 with
  | [] => if (takeDigits cs).1 = [] then none else some (natOfDigits (takeDigits cs).1)
  | r :: rest2 =>
    if r = '.' then
      if (takeDigits rest2).2 = [] ∧ ¬((takeDigits cs).1 = [] ∧ (takeDigits rest2).1 = []) then
        some ((natOfDigits (takeDigits cs).1 : ℚ) +
          (natOfDigits (takeDigits rest2).1 : ℚ) / 10 ^ (takeDigits rest2).1.length)
      else none
    else none

/-- `BaseScraper.extract_price`: empty string is falsy and yields `None`;
otherwise strip everything but digits, dots and commas (`re.sub`), drop the
commas (`str.replace`), and apply `float`, catching `ValueError`. -/
def extract_price (price_str : String) : Option ℚ :=
  if price_str = "" then none
  else
    parseFloat ((price_str.data.filter
      (fun c => c.isDigit || c = '.' || c = ',')).filter (fun c => ¬(c = ',')))

/-! ## PriceParser: `BaseScraper.calculate_discount` -/

/-- Round-half-to-even to an integer, the rounding used by Python `round`. -/
def roundHalfEven (q : ℚ) : ℤ :=
  let f := ⌊q⌋
  let r := q - f
  if r < 1/2 then f
  else if 1/2 < r then f + 1
  else if f % 2 = 0 then f else f + 1

/-- `round(x, 2)`: round to two decimal places, half to even. -/
def round2 (q : ℚ) : ℚ := (roundHalfEven (q * 100) : ℚ) / 100

/-- `BaseScraper.calculate_discount`: `if not original_price or not
sale_price or original_price <= 0: return 0.0`, else the rounded
percentage.  The arguments are modelled as optionals because the guard
tests Python truthiness (absent or zero). -/
def calculate_discount (original_price sale_price : Option ℚ) : ℚ :=
  if pyQ original_price = false ∨ pyQ sale_price = false ∨ original_price.getD 0 ≤ 0 then 0
  else round2 ((original_price.getD 0 - sale_price.getD 0) / original_price.getD 0 * 100)

/-! ## Spec-side reading of `extractPrice` (for the refinement claim C6)

These definitions restate the spec's words — "strips everything but
digits/decimal/thousands separators, treats comma as a thousands separator,
returns a decimal value or no value if the residual does not parse" — to be
compared against `extract_price` as embedded from the source. -/

/-- The residual the spec speaks about: drop every character that is not a
digit, a decimal point or a comma, then drop the commas (thousands
separators). -/
def residual (s : String) : List Char :=
  (s.data.filter (fun c => c.isDigit || c = '.' || c = ',')).filter (fun c => ¬(c = ','))

/-- Spec side: the residual parses as a decimal numeral iff it consists of
digits and at most one decimal point, with at least one digit. -/
def specNumOk (cs : List Char) : Bool :=
  cs.all (fun c => c.isDigit || c = '.') && decide (cs.count '.' ≤ 1) &&
    cs.any (fun c => c.isDigit)

/-- Spec side: the decimal value of a parsed residual — all its digits read
as an integer, shifted right by the number of digits after the decimal
point. -/
def specVal (cs : List Char) : ℚ :=
  (natOfDigits (cs.filter (fun c => c.isDigit)) : ℚ) /
    10 ^ ((cs.dropWhile (fun c => !(c == '.'))).filter (fun c => c.isDigit)).length

/-! ### Facts relating `parseFloat` to the spec-side reading -/

lemma takeDigits_eq (cs : List Char) :
    takeDigits cs = (cs.takeWhile (fun c => c.isDigit), cs.dropWhile (fun c => c.isDigit)) := by
  induction cs with
  | nil => rfl
  | cons c rest ih =>
    by_cases h : c.isDigit <;>
      simp [takeDigits, List.takeWhile_cons, List.dropWhile_cons, h, ih]

lemma dropWhile_head_not (p : Char → Bool) :
    ∀ (l : List Char) (c : Char) (r : List Char), l.dropWhile p = c :: r → p c = false := by
  intro l
  induction l with
  | nil => intro c r h; simp at h
  | cons a t ih =>
    intro c r h
    rw [List.dropWhile_cons] at h
    split at h
    · exact ih _ _ h
    · cases h
      rename_i ha
      simpa using ha

lemma dropWhile_append_of_all (p : Char → Bool) (A l : List Char)
    (h : ∀ c ∈ A, p c = true) : (A ++ l).dropWhile p = l.dropWhile p := by
  induction A with
  | nil => rfl
  | cons a t ih =>
    have ha : p a = true := h a (by simp)
    simp only [List.cons_append, List.dropWhile_cons, ha, if_pos]
    exact ih (fun c hc => h c (by simp [hc]))

lemma natOfDigits_append (a b : List Char) :
    natOfDigits (a ++ b) = natOfDigits a * 10 ^ b.length + natOfDigits b := by
  induction a with
  | nil => simp [natOfDigits]
  | cons c t ih =>
    simp only [List.cons_append, natOfDigits, ih, List.append_eq, List.length_append, pow_add]
    ring

lemma isDigit_ne_dot {c : Char} (h : c.isDigit = true) : ¬(c = '.') := by
  rintro rfl
  simp at h

/-- `parseFloat` agrees with the spec-side decimal reading. -/
lemma parseFloat_eq (cs : List Char) :
    parseFloat cs = if specNumOk cs then some (specVal cs) else none := by
  have hsplit : cs.takeWhile (fun c => c.isDigit) ++ cs.dropWhile (fun c => c.isDigit) = cs :=
    List.takeWhile_append_dropWhile _ _
  have hA : ∀ c ∈ cs.takeWhile (fun c => c.isDigit), c.isDigit = true :=
    fun c hc => List.mem_takeWhile_imp hc
  set A := cs.takeWhile (fun c => c.isDigit) with hAdef
  cases hR : cs.dropWhile (fun c => c.isDigit) with
  | nil =>
    simp only [parseFloat, takeDigits_eq, hR, ← hAdef]
    have hcs : cs = A := by
      conv_lhs => rw [← hsplit]
      rw [hR, List.append_nil]
    by_cases hA0 : A = []
    · have hnil : cs = [] := by rw [hcs, hA0]
      subst hnil
      simp [specNumOk, hA0]
    · rw [if_neg hA0]
      have hok : specNumOk cs = true := by
        simp only [specNumOk, Bool.and_eq_true, List.all_eq_true, List.any_eq_true,
          decide_eq_true_eq]
        refine ⟨⟨fun c hc => by simp [hA c (hcs ▸ hc)], ?_⟩, ?_⟩
        · have hz : cs.count '.' = 0 := by
            refine List.count_eq_zero.mpr (fun hmem => ?_)
            exact isDigit_ne_dot (hA _ (hcs ▸ hmem)) rfl
          omega
        · obtain ⟨c, hc⟩ := List.exists_mem_of_ne_nil _ hA0
          refine ⟨c, ?_, hA c hc⟩
          rw [hcs]
          exact hc
      rw [if_pos hok]
      have hfilter : cs.filter (fun c => c.isDigit) = A := by
        rw [hcs]
        exact List.filter_eq_self.mpr (fun c hc => hA c hc)
      have hdrop : cs.dropWhile (fun c => !(c == '.')) = [] := by
        refine List.dropWhile_eq_nil_iff.mpr (fun c hc => ?_)
        simp [isDigit_ne_dot (hA c (hcs ▸ hc))]
      rw [specVal, hfilter, hdrop]
      simp
  | cons r R2 =>
    simp only [parseFloat, takeDigits_eq, hR, ← hAdef]
    have hrd : r.isDigit = false := dropWhile_head_not _ cs r R2 hR
    have hcs : cs = A ++ r :: R2 := by
      conv_lhs => rw [← hsplit]
      rw [hR]
    by_cases hr : r = '.'
    · subst hr
      rw [if_pos rfl]
      have hsplit2 : R2.takeWhile (fun c => c.isDigit) ++ R2.dropWhile (fun c => c.isDigit) = R2 :=
        List.takeWhile_append_dropWhile _ _
      have hF : ∀ c ∈ R2.takeWhile (fun c => c.isDigit), c.isDigit = true :=
        fun c hc => List.mem_takeWhile_imp hc
      set F := R2.takeWhile (fun c => c.isDigit) with hFdef
      cases hR3 : R2.dropWhile (fun c => c.isDigit) with
      | nil =>
        have hR2 : R2 = F := by
          conv_lhs => rw [← hsplit2]
          rw [hR3, List.append_nil]
        by_cases hAF : A = [] ∧ F = []
        · rw [if_neg (by simp [hR3, hAF.1, hAF.2])]
          have hdot : cs = ['.'] := by
            rw [hcs, hAF.1, hR2, hAF.2]
            rfl
          rw [hdot]
          simp [specNumOk]
        · rw [if_pos ⟨rfl, hAF⟩]
          have hok : specNumOk cs = true := by
            simp only [specNumOk, Bool.and_eq_true, List.all_eq_true, List.any_eq_true,
              decide_eq_true_eq]
            refine ⟨⟨fun c hc => ?_, ?_⟩, ?_⟩
            · rw [hcs] at hc
              rcases List.mem_append.mp hc with h | h
              · simp [hA c h]
              · rcases List.mem_cons.mp h with h | h
                · simp [h]
                · simp [hF c (hR2 ▸ h)]
            · rw [hcs, List.count_append, List.count_cons_self]
              have h1 : A.count '.' = 0 :=
                List.count_eq_zero.mpr (fun hmem => isDigit_ne_dot (hA _ hmem) rfl)
              have h2 : R2.count '.' = 0 := by
                rw [hR2]
                exact List.count_eq_zero.mpr (fun hmem => isDigit_ne_dot (hF _ (hR2 ▸ hmem)) rfl)
              omega
            · rcases not_and_or.mp hAF with h | h
              · obtain ⟨c, hc⟩ := List.exists_mem_of_ne_nil _ h
                exact ⟨c, hcs ▸ List.mem_append_left _ hc, hA c hc⟩
              · obtain ⟨c, hc⟩ := List.exists_mem_of_ne_nil _ h
                refine ⟨c, ?_, hF c (hR2 ▸ hc)⟩
                rw [hcs]
                exact List.mem_append_right _ (List.mem_cons_of_mem _ (hR2 ▸ hc))
          rw [if_pos hok]
          have hFall : ∀ c ∈ R2, c.isDigit = true := fun c hc => hF c (hR2 ▸ hc)
          have hfilter : cs.filter (fun c => c.isDigit) = A ++ F := by
            rw [hcs, List.filter_append, List.filter_cons]
            simp only [show ('.' : Char).isDigit = false from rfl, Bool.false_eq_true,
              if_false]
            rw [List.filter_eq_self.mpr (fun c hc => hA c hc),
              List.filter_eq_self.mpr hFall, hR2]
          have hdrop : cs.dropWhile (fun c => !(c == '.')) = '.' :: R2 := by
            rw [hcs, dropWhile_append_of_all _ _ _
              (fun c hc => by simp [isDigit_ne_dot (hA c hc)])]
            rw [List.dropWhile_cons]
            simp
          rw [specVal, hfilter, hdrop, natOfDigits_append]
          rw [List.filter_cons]
          simp only [show ('.' : Char).isDigit = false from rfl, Bool.false_eq_true,
            if_false]
          rw [List.filter_eq_self.mpr hFall, hR2]
          push_cast
          rw [add_div]
          congr 1
          rw [mul_div_assoc, div_self (by positivity), mul_one]
      | cons r3 R3 =>
        have hr3d : r3.isDigit = false := dropWhile_head_not _ R2 r3 R3 hR3
        rw [if_neg (by simp [hR3])]
        have hR2eq : R2 = F ++ r3 :: R3 := by
          conv_lhs => rw [← hsplit2]
          rw [hR3]
        have hnotok : ¬(specNumOk cs = true) := by
          simp only [specNumOk, Bool.and_eq_true, List.all_eq_true, List.any_eq_true,
            decide_eq_true_eq, not_and_or]
          by_cases hr3 : r3 = '.'
          · subst hr3
            refine Or.inl (Or.inr ?_)
            rw [hcs, List.count_append, List.count_cons_self, hR2eq,
              List.count_append, List.count_cons_self]
            omega
          · refine Or.inl (Or.inl ?_)
            intro hall
            have hmem : r3 ∈ cs := by
              rw [hcs]
              refine List.mem_append_right _ (List.mem_cons_of_mem _ ?_)
              rw [hR2eq]
              exact List.mem_append_right _ (List.mem_cons_self _ _)
            have hx := hall r3 hmem
            simp [hr3d, hr3] at hx
        rw [if_neg hnotok]
    · rw [if_neg hr]
      have hnotok : ¬(specNumOk cs = true) := by
        simp only [specNumOk, Bool.and_eq_true, List.all_eq_true, List.any_eq_true,
          decide_eq_true_eq, not_and_or]
        refine Or.inl (Or.inl ?_)
        intro hall
        have hmem : r ∈ cs := by
          rw [hcs]
          exact List.mem_append_right _ (List.mem_cons_self _ _)
        have hx := hall r hmem
        simp [hrd, hr] at hx
      rw [if_neg hnotok]

lemma roundHalfEven_intCast (n : ℤ) : roundHalfEven (n : ℚ) = n := by
  rw [roundHalfEven]
  simp only [Int.floor_intCast, sub_self]
  norm_num

lemma round2_intCast (q : ℚ) (n : ℤ) (h : q * 100 = (n : ℚ)) : round2 q = (n : ℚ) / 100 := by
  rw [round2, h, roundHalfEven_intCast]

/-- C6: `extract_price` strips every character except digits, decimal points
and commas, drops the commas (thousands separators) and returns the decimal
value of the residual, or no value when the residual does not parse;
`extract_price "$149.99" = 149.99`, `extract_price "1,299.00" = 1299.00`,
`extract_price "Free"` yields no value. -/
theorem C6_extract_price :
    (∀ s : String,
        extract_price s =
          if specNumOk (residual s) then some (specVal (residual s)) else none)
  ∧ extract_price "$149.99" = some (149.99 : ℚ)
  ∧ extract_price "1,299.00" = some (1299.00 : ℚ)
  ∧ extract_price "Free" = none := by
  have hgen : ∀ s : String,
      extract_price s =
        if specNumOk (residual s) then some (specVal (residual s)) else none := by
    intro s
    by_cases hs : s = ""
    · subst hs
      have hres : residual "" = [] := rfl
      rw [hres]
      simp [extract_price, specNumOk]
    · rw [extract_price, if_neg hs]
      exact parseFloat_eq (residual s)
  refine ⟨hgen, ?_, ?_, ?_⟩
  · rw [hgen, show residual "$149.99" = ['1', '4', '9', '.', '9', '9'] from by decide,
      if_pos (by decide)]
    rw [specVal,
      show (['1', '4', '9', '.', '9', '9'].filter (fun c => c.isDigit)) =
        ['1', '4', '9', '9', '9'] from by decide,
      show ((['1', '4', '9', '.', '9', '9'].dropWhile (fun c => !(c == '.'))).filter
        (fun c => c.isDigit)).length = 2 from by decide,
      show natOfDigits ['1', '4', '9', '9', '9'] = 14999 from by decide]
    norm_num
  · rw [hgen, show residual "1,299.00" = ['1', '2', '9', '9', '.', '0', '0'] from by decide,
      if_pos (by decide)]
    rw [specVal,
      show (['1', '2', '9', '9', '.', '0', '0'].filter (fun c => c.isDigit)) =
        ['1', '2', '9', '9', '0', '0'] from by decide,
      show ((['1', '2', '9', '9', '.', '0', '0'].dropWhile (fun c => !(c == '.'))).filter
        (fun c => c.isDigit)).length = 2 from by decide,
      show natOfDigits ['1', '2', '9', '9', '0', '0'] = 129900 from by decide]
    norm_num
  · rw [hgen, show residual "Free" = [] from by decide]
    simp [specNumOk]

/-- Witness for C6: the general characterization evaluated at the concrete
input `"$149.99"`. -/
theorem C6_witness : extract_price "$149.99" = some (149.99 : ℚ) :=
  C6_extract_price.2.1

/-- C5, counterexample: the claim says that for every original > 0 and every
present sale value the result is the rounded formula, so
`discount(100, 0)` would have to be `100.00`; the code's truthiness guard
(`not sale_price`) treats the present value `0.0` as absent and returns
`0.0` instead. -/
theorem C5_counterexample :
    ¬(calculate_discount (some 100) (some 0) = round2 ((100 - 0) / 100 * 100)) := by
  have h1 : calculate_discount (some 100) (some 0) = 0 := by
    rw [calculate_discount, if_pos]
    right
    left
    simp [pyQ]
  have h2 : round2 ((100 - 0 : ℚ) / 100 * 100) = 100 := by
    rw [round2_intCast ((100 - 0 : ℚ) / 100 * 100) 10000 (by norm_num)]
    norm_num
  rw [h1, h2]
  norm_num

/-- C5, amended: `discount(original, sale)` returns 0 if original is absent
or ≤ 0, or sale is absent **or zero** (Python truthiness conflates the
two); for every original > 0 and every present non-zero sale it returns
`(original − sale)/original × 100` rounded to 2 decimals;
`discount(100, 75) = 25.00`, `discount(0, 75) = 0.0`,
`discount(absent, 75) = 0.0`. -/
theorem C5_calculate_discount :
    (∀ o s : Option ℚ,
        (o = none ∨ (∃ x, o = some x ∧ x ≤ 0) ∨ s = none ∨ s = some 0) →
        calculate_discount o s = 0)
  ∧ (∀ x y : ℚ, 0 < x → y ≠ 0 →
        calculate_discount (some x) (some y) = round2 ((x - y) / x * 100))
  ∧ calculate_discount (some 100) (some 75) = 25
  ∧ calculate_discount (some 0) (some 75) = 0
  ∧ calculate_discount none (some 75) = 0 := by
  have hzero : ∀ o s : Option ℚ,
      (o = none ∨ (∃ x, o = some x ∧ x ≤ 0) ∨ s = none ∨ s = some 0) →
      calculate_discount o s = 0 := by
    intro o s h
    rw [calculate_discount, if_pos]
    rcases h with rfl | ⟨x, rfl, hx⟩ | rfl | rfl
    · left
      rfl
    · by_cases hx0 : x = 0
      · left
        simp [pyQ, hx0]
      · right
        right
        simpa using hx
    · right
      left
      rfl
    · right
      left
      simp [pyQ]
  have hform : ∀ x y : ℚ, 0 < x → y ≠ 0 →
      calculate_discount (some x) (some y) = round2 ((x - y) / x * 100) := by
    intro x y hx hy
    rw [calculate_discount, if_neg]
    · simp only [Option.getD_some]
    · push_neg
      refine ⟨?_, ?_, ?_⟩
      · simp [pyQ, hx.ne']
      · simp [pyQ, hy]
      · simp only [Option.getD_some]
        exact hx
  refine ⟨hzero, hform, ?_, ?_, ?_⟩
  · rw [hform 100 75 (by norm_num) (by norm_num),
      round2_intCast _ 2500 (by norm_num)]
    norm_num
  · exact hzero _ _ (Or.inr (Or.inl ⟨0, rfl, le_refl 0⟩))
  · exact hzero _ _ (Or.inl rfl)

/-- Witness for C5: the zero-returning branch at `(absent, 75)` and the
formula branch at `(100, 75)`, both at concrete inputs. -/
theorem C5_witness :
    ((none : Option ℚ) = none ∨ (∃ x, (none : Option ℚ) = some x ∧ x ≤ 0) ∨
        (some (75 : ℚ)) = none ∨ some (75 : ℚ) = some 0)
  ∧ calculate_discount none (some 75) = 0
  ∧ (0 : ℚ) < 100 ∧ (75 : ℚ) ≠ 0
  ∧ calculate_discount (some 100) (some 75) = round2 ((100 - 75) / 100 * 100) :=
  ⟨Or.inl rfl, C5_calculate_discount.1 none (some 75) (Or.inl rfl), by decide, by decide,
    C5_calculate_discount.2.1 100 75 (by decide) (by decide)⟩

/-! ## Listings (the `shoe_data` dict built by every scraper) -/

/-- One normalized Listing, as assembled by `parse_listing_page` and
consumed by `filter_shoes` and `Database.upsert_shoe`. -/
structure ShoeData where
  product_id : String
  name : String
  brand : Option String
  website : String
  url : String
  current_price : Option ℚ
  original_price : Option ℚ
  discount_percentage : Option ℚ
  is_on_sale : Bool
  price_hidden : Bool
  requires_manual_review : Bool
  image_url : Option String
deriving DecidableEq

/-! ## Config and `BaseScraper.filter_shoes` -/

/-- Python `str.strip()`: drop whitespace from both ends. -/
def pyStrip (cs : List Char) : List Char :=
  ((cs.dropWhile (fun c => c.isWhitespace)).reverse.dropWhile (fun c => c.isWhitespace)).reverse

/-- Python `needle in hay` on strings: substring test. -/
def pyIn (needle hay : List Char) : Bool :=
  match hay with
  | [] => needle.isEmpty
  | _ :: rest => needle.isPrefixOf hay || pyIn needle rest

/-- `Config.get_keywords`: split the configured keyword string on commas and
strip/lowercase each keyword. -/
def get_keywords (keywords_str : String) : List (List Char) :=
  (splitOnChar ',' keywords_str.data).map (fun kw => (pyStrip kw).map Char.toLower)

/-- `BaseScraper.filter_shoes`: keep a shoe when its lowercased name
contains some keyword; among those, an on-sale shoe additionally needs
`discount >= MIN_DISCOUNT_PERCENTAGE`, a non-sale shoe passes. -/
def filter_shoes (keywords : List (List Char)) (min_discount : ℚ) :
    List ShoeData → List ShoeData
  | [] => []
  | shoe :: rest =>
    if keywords.any (fun kw => pyIn kw (shoe.name.data.map Char.toLower)) then
      if shoe.is_on_sale then
        if min_discount ≤ shoe.discount_percentage.getD 0 then
          shoe :: filter_shoes keywords min_discount rest
        else filter_shoes keywords min_discount rest
      else shoe :: filter_shoes keywords min_discount rest
    else filter_shoes keywords min_discount rest

lemma filter_shoes_eq_filter (keywords : List (List Char)) (min_discount : ℚ)
    (shoes : List ShoeData) :
    filter_shoes keywords min_discount shoes = shoes.filter (fun shoe =>
      keywords.any (fun kw => pyIn kw (shoe.name.data.map Char.toLower)) &&
        (!shoe.is_on_sale || decide (min_discount ≤ shoe.discount_percentage.getD 0))) := by
  induction shoes with
  | nil => rfl
  | cons s rest ih =>
    rw [filter_shoes, List.filter_cons]
    by_cases h1 : keywords.any (fun kw => pyIn kw (s.name.data.map Char.toLower)) = true
    · by_cases h2 : s.is_on_sale = true
      · by_cases h3 : min_discount ≤ s.discount_percentage.getD 0
        · simp [h1, h2, h3, ih]
        · simp [h1, h2, h3, ih]
      · simp [h1, h2, ih]
    · simp [h1, ih]

/-- C7: `filter_shoes` keeps exactly the listings whose name contains at
least one configured keyword as a case-insensitive substring; among those
keyword matches an on-sale listing is kept iff its discount percentage
meets the configured minimum threshold, and a non-sale listing is kept
unconditionally. -/
theorem C7_filter_shoes (keywords : List (List Char)) (min_discount : ℚ)
    (shoes : List ShoeData) (shoe : ShoeData) :
    shoe ∈ filter_shoes keywords min_discount shoes ↔
      shoe ∈ shoes ∧
        (∃ kw ∈ keywords, pyIn kw (shoe.name.data.map Char.toLower) = true) ∧
        (shoe.is_on_sale = true → min_discount ≤ shoe.discount_percentage.getD 0) := by
  rw [filter_shoes_eq_filter, List.mem_filter]
  simp only [Bool.and_eq_true, List.any_eq_true, Bool.or_eq_true, Bool.not_eq_true',
    decide_eq_true_eq, and_assoc]
  constructor
  · rintro ⟨hmem, hkw, hd⟩
    refine ⟨hmem, hkw, fun hs => ?_⟩
    rcases hd with hd | hd
    · rw [hs] at hd
      exact absurd hd (by simp)
    · exact hd
  · rintro ⟨hmem, hkw, hd⟩
    refine ⟨hmem, hkw, ?_⟩
    by_cases hs : shoe.is_on_sale = true
    · exact Or.inr (hd hs)
    · exact Or.inl (Bool.not_eq_true _ ▸ hs)

/-- Listing used by the C7 witness: on sale at a 20% discount, with a
keyword match that differs in case on both sides. -/
def w7shoe : ShoeData :=
  { product_id := "d1", name := "Alpha TRAIL Shoe", brand := none, website := "W",
    url := "u", current_price := some 80, original_price := some 100,
    discount_percentage := some 20, is_on_sale := true, price_hidden := false,
    requires_manual_review := false, image_url := none }

/-- Witness for C7: the characterization evaluated on one concrete listing
and the configured keywords `"Running, trail"`. -/
theorem C7_witness :
    w7shoe ∈ filter_shoes (get_keywords "Running, trail") 10 [w7shoe] :=
  (C7_filter_shoes (get_keywords "Running, trail") 10 [w7shoe] w7shoe).mpr
    ⟨by decide, by decide, by decide⟩

/-! ## `BaseScraper.is_price_hidden` and the Dick's listing parser -/

/-- The fixed vocabulary of concealment phrases. -/
def hidden_price_patterns : List String :=
  ["see price in cart", "price in cart", "add to cart to see price",
   "add to bag to see price", "login to see price", "sign in to see price",
   "view price in cart", "price available in cart", "cart price",
   "special price in cart", "member price", "members only"]

/-- `BaseScraper.is_price_hidden`: lowercase the container's full text and
look for any concealment phrase as a substring. -/
def is_price_hidden (text : String) : Bool :=
  hidden_price_patterns.any (fun p => pyIn p.data (text.data.map Char.toLower))

/-- `BaseScraper.generate_product_id`. -/
def generate_product_id (website product_identifier : String) : String :=
  website ++ "_" ++ product_identifier

def base_url : String := "https://www.dickssportinggoods.com"

def website_name : String := "Dick's Sporting Goods"

/-- The three image-url attributes an `img` element may carry. -/
structure ImgElem where
  src : Option String
  dataSrc : Option String
  dataLazySrc : Option String
deriving DecidableEq

/-- Abstraction of one product container (a DOM subtree): the outcome of
each selector/attribute lookup `parse_listing_page` performs on it.  Text
lists hold the texts of the matching elements in selector-priority order. -/
structure Container where
  nameText : Option String
  brandText : Option String
  linkHref : Option String
  dataProductId : Option String
  dataSku : Option String
  idAttr : Option String
  fullText : String
  salePriceTexts : List String
  dataSalePrice : Option String
  dataPrice : Option String
  regularPriceTexts : List String
  dataRegularPrice : Option String
  anyPriceTexts : List String
  saleMarker : Bool
  saleMarkerCap : Bool
  img : Option ImgElem
deriving DecidableEq

/-- The price-selector loop: first candidate text whose extracted price is
truthy (a price of `0.0` does not break the loop and stays falsy). -/
def firstPrice : List String → Option ℚ
  | [] => none
  | t :: rest =>
    match extract_price t with
    | some p => if p = 0 then firstPrice rest else some p
    | none => firstPrice rest

/-- Collapse a falsy price (`None` or `0.0`) to `none`. -/
def pyPrice : Option ℚ → Option ℚ
  | some p => if p = 0 then none else some p
  | none => none

/-- Image extraction: `src or data-src or data-lazy-src`, then prefix
protocol-relative urls with `https:`. -/
def getImageUrl : Option ImgElem → Option String
  | none => none
  | some e =>
    match pyOrS e.src (pyOrS e.dataSrc e.dataLazySrc) with
    | none => none
    | some s =>
      if ¬(s = "") ∧ ['/', '/'].isPrefixOf s.data then some ("https:" ++ s) else some s

/-- Python `\w` (ASCII fragment). -/
def isWordChar (c : Char) : Bool := c.isAlphanum || c = '_'

/-- Backtracking split of the `[\w-]+-(\w+)` tail over a `[\w-]` run:
the regex engine shrinks the greedy `[\w-]+` from the right, so the chosen
dash is the rightmost one followed by a word character; returns the
characters before that dash and the maximal word-char run after it. -/
def lastDashSplit : List Char → Option (List Char × List Char)
  | [] => none
  | c :: rest =>
    match lastDashSplit rest with
    | some (A, B) => some (c :: A, B)
    | none =>
      if c = '-' then
        match rest with
        | d :: _ =>
          if isWordChar d then some ([], rest.takeWhile (fun x => isWordChar x)) else none
        | [] => none
      else none

/-- Try to match `/p/[\w-]+-(\w+)` starting at this position; the group is
returned on success.  The `[\w-]+` part must be non-empty. -/
def matchPAt (cs : List Char) : Option (List Char) :=
  match cs with
  | '/' :: 'p' :: '/' :: rest =>
    match lastDashSplit (rest.takeWhile (fun c => isWordChar c || c = '-')) with
    | some (A, B) => if A = [] then none else some B
    | none => none
  | _ => none

/-- `re.search(r'/p/[\w-]+-(\w+)', product_url)`: leftmost starting
position that admits a match wins. -/
def regexSearchPId : List Char → Option (List Char)
  | [] => none
  | c :: rest =>
    match matchPAt (c :: rest) with
    | some g => some g
    | none => regexSearchPId rest

/-- The Listing dict emitted for a hidden-price container: price fields
absent, zero discount, not on sale, flagged for manual review. -/
def mk_hidden_shoe (pid name : String) (brand : Option String) (url : String)
    (image_url : Option String) : ShoeData :=
  { product_id := pid, name := name, brand := brand, website := website_name,
    url := url, current_price := none, original_price := none,
    discount_percentage := some 0, is_on_sale := false, price_hidden := true,
    requires_manual_review := true, image_url := image_url }

/-- The Listing dict emitted after normal price extraction. -/
def mk_normal_shoe (pid name : String) (brand : Option String) (url : String)
    (cp op : ℚ) (sale : Bool) (discount : ℚ) (image_url : Option String) : ShoeData :=
  { product_id := pid, name := name, brand := brand, website := website_name,
    url := url, current_price := some cp, original_price := some op,
    discount_percentage := some discount, is_on_sale := sale, price_hidden := false,
    requires_manual_review := false, image_url := image_url }

/-- The sale-price resolution chain: the sale-price selectors, then the
`data-sale-price`/`data-price` attributes, then the generic price-selector
fallback; a falsy intermediate result falls through to the next stage. -/
def current_price_of (c : Container) : Option ℚ :=
  match
    (match firstPrice c.salePriceTexts with
     | some p => some p
     | none =>
       if pyS c.dataSalePrice then pyPrice (extract_price (c.dataSalePrice.getD ""))
       else if pyS c.dataPrice then pyPrice (extract_price (c.dataPrice.getD ""))
       else none) with
  | some p => some p
  | none => firstPrice c.anyPriceTexts

/-- The original-price resolution chain: regular-price selectors, then the
`data-regular-price` attribute. -/
def original_price_of (c : Container) : Option ℚ :=
  match firstPrice c.regularPriceTexts with
  | some p => some p
  | none =>
    if pyS c.dataRegularPrice then pyPrice (extract_price (c.dataRegularPrice.getD ""))
    else none

/-- Normal extraction for a container whose price is not concealed: drop
the item when no current price resolves, default the original price to the
current one, then determine the sale state and discount. -/
def parse_normal (c : Container) (pid name product_url : String) : Option ShoeData :=
  match current_price_of c with
  | none => none
  | some cp =>
    let op := match original_price_of c with | some p => p | none => cp
    let sale := c.saleMarker || c.saleMarkerCap || decide (cp < op)
    let discount := if sale then calculate_discount (some op) (some cp) else 0
    some (mk_normal_shoe pid name c.brandText product_url cp op sale discount
      (getImageUrl c.img))

/-- `DicksScraper.parse_listing_page`, body of the per-container loop: name,
url and product-id extraction (each failure drops the item), then the
hidden-price check, then normal price extraction. -/
def parse_container (c : Container) : Option ShoeData :=
  if pyS c.nameText = false then none
  else
    let name := c.nameText.getD ""
    let purl : Option String :=
      match c.linkHref with
      | some u =>
        if ¬(u = "") ∧ ¬("http".data.isPrefixOf u.data) then some (base_url ++ u) else some u
      | none => none
    if pyS purl = false then none
    else
      let product_url := purl.getD ""
      let pid0 := pyOrS c.dataProductId (pyOrS c.dataSku c.idAttr)
      let pid : Option String :=
        if pyS pid0 = false then
          -- product_url is truthy here, so `not product_id and product_url` holds
          match regexSearchPId product_url.data with
          | some g => some (String.mk g)
          | none =>
            some (String.mk (((splitOnChar '?'
              ((splitOnChar '/' product_url.data).getLastD [])).headD [])))
        else pid0
      if pyS pid = false then none
      else
        let product_id := pid.getD ""
        if is_price_hidden c.fullText then
          some (mk_hidden_shoe (generate_product_id website_name product_id) name
            c.brandText product_url (getImageUrl c.img))
        else
          parse_normal c (generate_product_id website_name product_id) name product_url

/-- The page-level dedup: normalize the id by stripping the `?` variant
suffix; the first occurrence wins. -/
def dedup_shoes (seen : List String) : List ShoeData → List ShoeData
  | [] => []
  | s :: rest =>
    let base_id := String.mk ((splitOnChar '?' s.product_id.data).headD [])
    if base_id ∈ seen then dedup_shoes seen rest
    else s :: dedup_shoes (base_id :: seen) rest

/-- `DicksScraper.parse_listing_page`: the container-selector fallback chain
(first selector with a non-empty hit set), the per-container loop, then the
page-level dedup. -/
def parse_listing_page (selections : List (List Container)) : List ShoeData :=
  dedup_shoes [] (((selections.find? (fun l => !l.isEmpty)).getD []).filterMap parse_container)

lemma mem_dedup_shoes {s : ShoeData} :
    ∀ (seen : List String) (l : List ShoeData), s ∈ dedup_shoes seen l → s ∈ l := by
  intro seen l
  induction l generalizing seen with
  | nil => intro h; simp [dedup_shoes] at h
  | cons x rest ih =>
    intro h
    rw [dedup_shoes] at h
    split at h
    · exact List.mem_cons_of_mem _ (ih _ h)
    · rcases List.mem_cons.mp h with h | h
      · exact h ▸ List.mem_cons_self _ _
      · exact List.mem_cons_of_mem _ (ih _ h)

lemma parse_normal_eq_some {c : Container} {pid name url : String} {s : ShoeData}
    (h : parse_normal c pid name url = some s) :
    ∃ cp op sale disc img, s = mk_normal_shoe pid name c.brandText url cp op sale disc img := by
  rw [parse_normal] at h
  cases hcp : current_price_of c with
  | none => rw [hcp] at h; exact absurd h (by simp)
  | some cp =>
    rw [hcp] at h
    dsimp only [] at h
    exact ⟨_, _, _, _, _, (Option.some_injective _ h).symm⟩

lemma parse_container_cases {c : Container} {s : ShoeData}
    (h : parse_container c = some s) :
    (∃ pid name brand url img, s = mk_hidden_shoe pid name brand url img) ∨
    (∃ pid name brand url cp op sale disc img,
      s = mk_normal_shoe pid name brand url cp op sale disc img) := by
  rw [parse_container] at h
  repeat'
    first
      | split at h
      | dsimp only [] at h
      | exact Or.inl ⟨_, _, _, _, _, (Option.some_injective _ h).symm⟩
      | (obtain ⟨cp, op, sale, disc, img, rfl⟩ := parse_normal_eq_some h
         exact Or.inr ⟨_, _, _, _, cp, op, sale, disc, img, rfl⟩)
      | simp at h

/-- C4: every Listing emitted by `parse_listing_page` with
`price_hidden = true` has absent price fields, `needs_review = true`,
`on_sale = false` and zero discount; no input makes a price-hidden Listing
carry `on_sale = true` or a non-zero `discount_pct`. -/
theorem C4_price_hidden (selections : List (List Container)) (l : ShoeData)
    (hmem : l ∈ parse_listing_page selections) (hph : l.price_hidden = true) :
    l.current_price = none ∧ l.original_price = none ∧
      l.requires_manual_review = true ∧ l.is_on_sale = false ∧
      l.discount_percentage = some 0 := by
  rw [parse_listing_page] at hmem
  obtain ⟨c, _, hc⟩ := List.mem_filterMap.mp (mem_dedup_shoes _ _ hmem)
  rcases parse_container_cases hc with ⟨pid, nm, br, url, img, rfl⟩ |
    ⟨pid, nm, br, url, cp, op, sale, disc, img, rfl⟩
  · simp [mk_hidden_shoe]
  · simp [mk_normal_shoe] at hph

/-- Container used by the C4 witness: a valid name, link and product id,
with `"See Price In Cart"` in its text. -/
def w4c : Container :=
  { nameText := some "Trail Running Shoe", brandText := some "Nike",
    linkHref := some "http://x/p/shoe-ABC", dataProductId := some "X1",
    dataSku := none, idAttr := none,
    fullText := "Nike Trail Running Shoe See Price In Cart",
    salePriceTexts := [], dataSalePrice := none, dataPrice := none,
    regularPriceTexts := [], dataRegularPrice := none, anyPriceTexts := [],
    saleMarker := false, saleMarkerCap := false, img := none }

/-- The single Listing the witness page parses to. -/
def w4shoe : ShoeData :=
  (parse_listing_page [[w4c]]).headD (mk_hidden_shoe "" "" none "" none)

/-- Witness for C4: the hidden-price invariant evaluated on one concrete
parsed page. -/
theorem C4_witness :
    w4shoe ∈ parse_listing_page [[w4c]] ∧ w4shoe.price_hidden = true ∧
      (w4shoe.current_price = none ∧ w4shoe.original_price = none ∧
        w4shoe.requires_manual_review = true ∧ w4shoe.is_on_sale = false ∧
        w4shoe.discount_percentage = some 0) :=
  ⟨by decide, by decide, C4_price_hidden [[w4c]] w4shoe (by decide) (by decide)⟩

/-! ## `Database`: the persistent store -/

/-- A row of the `shoes` table. -/
structure ShoeRow where
  product_id : String
  name : String
  brand : Option String
  website : String
  url : String
  current_price : Option ℚ
  original_price : Option ℚ
  discount_percentage : Option ℚ
  is_on_sale : Bool
  price_hidden : Bool
  requires_manual_review : Bool
  last_checked : Nat
  first_seen : Nat
  image_url : Option String
deriving DecidableEq

/-- A row of the `price_history` table.  Its `price` column is declared
`REAL NOT NULL` by `init_db`, so a row can only ever hold a present
price. -/
structure PriceHistoryRow where
  product_id : String
  price : ℚ
  was_on_sale : Bool
  recorded_at : Nat
deriving DecidableEq

/-- A row of the `sale_alerts` table. -/
structure SaleAlertRow where
  id : Nat
  product_id : String
  alert_sent : Bool
  alert_sent_at : Option Nat
  sale_price : Option ℚ
  original_price : Option ℚ
  discount_percentage : Option ℚ
  created_at : Nat
deriving DecidableEq

/-- The SQLite database state.  Rows are kept in rowid (insertion) order;
`next_alert_id` models the AUTOINCREMENT alert id; `now` is a logical clock
standing for `datetime.now()`/`CURRENT_TIMESTAMP`, ticked once per
upsert. -/
structure DB where
  shoes : List ShoeRow
  price_history : List PriceHistoryRow
  sale_alerts : List SaleAlertRow
  next_alert_id : Nat
  now : Nat
deriving DecidableEq

/-- `SELECT * FROM shoes WHERE product_id = ?`, first match. -/
def find_shoe (db : DB) (pid : String) : Option ShoeRow :=
  db.shoes.find? (fun r => r.product_id == pid)

/-- The `UPDATE shoes SET ... WHERE product_id = ?` field replacement:
every mutable column is replaced by the listing's value; `website` and
`first_seen` are not in the SET list. -/
def shoeUpdate (d : ShoeData) (t : Nat) (r : ShoeRow) : ShoeRow :=
  { r with
    name := d.name
    brand := d.brand
    url := d.url
    current_price := d.current_price
    original_price := d.original_price
    discount_percentage := d.discount_percentage
    is_on_sale := d.is_on_sale
    price_hidden := d.price_hidden
    requires_manual_review := d.requires_manual_review
    last_checked := t
    image_url := d.image_url }

/-- The `INSERT INTO shoes ...` row; `first_seen` defaults to the current
timestamp. -/
def shoeInsert (d : ShoeData) (t : Nat) : ShoeRow :=
  { product_id := d.product_id, name := d.name, brand := d.brand,
    website := d.website, url := d.url, current_price := d.current_price,
    original_price := d.original_price, discount_percentage := d.discount_percentage,
    is_on_sale := d.is_on_sale, price_hidden := d.price_hidden,
    requires_manual_review := d.requires_manual_review, last_checked := t,
    first_seen := t, image_url := d.image_url }

/-- The `INSERT INTO sale_alerts ...` row: a snapshot of the listing's
price fields, unsent. -/
def alertRow (db : DB) (d : ShoeData) : SaleAlertRow :=
  { id := db.next_alert_id, product_id := d.product_id, alert_sent := false,
    alert_sent_at := none, sale_price := d.current_price,
    original_price := d.original_price, discount_percentage := d.discount_percentage,
    created_at := db.now }

/-- `Database.upsert_shoe`.  Look the Shoe up by `product_id`; on hit,
report a new sale on the strict false→true edge and replace every mutable
column; on miss, insert the row and report a new sale iff the listing is on
sale.  Then insert one `price_history` row unconditionally — the
`NOT NULL` constraint on its `price` column makes that insert raise
`sqlite3.IntegrityError` when the listing's price is absent, so the call
fails before `commit` and nothing is persisted.  Finally create a
`sale_alerts` row when a new sale was detected. -/
def upsert_shoe (db : DB) (d : ShoeData) : Except String (Bool × DB) :=
  let t := db.now
  let is_new_sale :=
    match find_shoe db d.product_id with
    | some existing => d.is_on_sale && !existing.is_on_sale
    | none => d.is_on_sale
  let shoes1 :=
    match find_shoe db d.product_id with
    | some _ =>
      db.shoes.map (fun r => if r.product_id == d.product_id then shoeUpdate d t r else r)
    | none => db.shoes ++ [shoeInsert d t]
  match d.current_price with
  | none => Except.error "NOT NULL constraint failed: price_history.price"
  | some p =>
    Except.ok (is_new_sale,
      { shoes := shoes1,
        price_history := db.price_history ++
          [{ product_id := d.product_id, price := p, was_on_sale := d.is_on_sale,
             recorded_at := t }],
        sale_alerts :=
          if is_new_sale then db.sale_alerts ++ [alertRow db d] else db.sale_alerts,
        next_alert_id := if is_new_sale then db.next_alert_id + 1 else db.next_alert_id,
        now := db.now + 1 })

/-- Stable insertion step for the `ORDER BY` model. -/
def insertBy {α : Type} (r : α → α → Bool) (x : α) : List α → List α
  | [] => [x]
  | y :: ys => if r x y then x :: y :: ys else y :: insertBy r x ys

/-- `ORDER BY` model: insertion sort with an explicit comes-before test. -/
def sortBy {α : Type} (r : α → α → Bool) : List α → List α
  | [] => []
  | x :: xs => insertBy r x (sortBy r xs)

/-- Truthiness of an optional integer (`if limit:`): `None` and `0` are
falsy. -/
def pyI : Option Int → Bool
  | none => false
  | some n => !(n == 0)

/-- SQLite `LIMIT n`: a negative limit means no limit. -/
def sqlLimit {α : Type} (rows : List α) (n : Int) : List α :=
  if n < 0 then rows else rows.take n.toNat

/-- `ORDER BY discount_percentage DESC` comes-before test (SQL `NULL`
sorts last under `DESC`). -/
def discDescBefore (a b : ShoeRow) : Bool :=
  match a.discount_percentage, b.discount_percentage with
  | some x, some y => decide (y ≤ x)
  | some _, none => true
  | none, some _ => false
  | none, none => true

/-- `Database.get_active_sales`: on-sale shoes by descending discount; the
`LIMIT` clause is appended only when `limit` is truthy. -/
def get_active_sales (db : DB) (limit : Option Int) : List ShoeRow :=
  let rows := sortBy discDescBefore (db.shoes.filter (fun r => r.is_on_sale))
  if pyI limit then sqlLimit rows (limit.getD 0) else rows

/-- `ORDER BY last_checked DESC` comes-before test. -/
def lastCheckedDescBefore (a b : ShoeRow) : Bool :=
  decide (b.last_checked ≤ a.last_checked)

/-- `Database.get_manual_review_items`: flagged shoes, most recently
checked first; the `LIMIT` clause is appended only when `limit` is
truthy. -/
def get_manual_review_items (db : DB) (limit : Option Int) : List ShoeRow :=
  let rows := sortBy lastCheckedDescBefore
    (db.shoes.filter (fun r => r.requires_manual_review))
  if pyI limit then sqlLimit rows (limit.getD 0) else rows

/-- `ORDER BY created_at DESC` comes-before test. -/
def createdDescBefore (a b : SaleAlertRow) : Bool :=
  decide (b.created_at ≤ a.created_at)

/-- `Database.get_unsent_alerts`: unsent alerts joined with their shoes,
most recent first.  The inner join only drops alerts whose shoe row is
missing, which the foreign key precludes. -/
def get_unsent_alerts (db : DB) : List SaleAlertRow :=
  sortBy createdDescBefore
    (db.sale_alerts.filter (fun a => !a.alert_sent && (find_shoe db a.product_id).isSome))

/-- The `UPDATE sale_alerts SET alert_sent = 1, alert_sent_at = ?` field
assignment. -/
def setSent (t : Nat) (a : SaleAlertRow) : SaleAlertRow :=
  { a with
    alert_sent := true
    alert_sent_at := some t }

/-- `Database.mark_alert_sent`. -/
def mark_alert_sent (db : DB) (alert_id : Nat) : DB :=
  { db with sale_alerts := db.sale_alerts.map (fun a =>
      if a.id == alert_id then setSent db.now a else a) }

/-! ### Inversion facts about `upsert_shoe` -/

lemma upsert_shoe_ok_elim {db : DB} {d : ShoeData} {b : Bool} {db' : DB}
    (h : upsert_shoe db d = Except.ok (b, db')) :
    ∃ p, d.current_price = some p ∧
      b = (match find_shoe db d.product_id with
           | some existing => d.is_on_sale && !existing.is_on_sale
           | none => d.is_on_sale) ∧
      db' = { shoes :=
                match find_shoe db d.product_id with
                | some _ => db.shoes.map (fun r =>
                    if r.product_id == d.product_id then shoeUpdate d db.now r else r)
                | none => db.shoes ++ [shoeInsert d db.now]
              price_history := db.price_history ++
                [{ product_id := d.product_id
                   price := p
                   was_on_sale := d.is_on_sale
                   recorded_at := db.now }]
              sale_alerts := if b then db.sale_alerts ++ [alertRow db d] else db.sale_alerts
              next_alert_id := if b then db.next_alert_id + 1 else db.next_alert_id
              now := db.now + 1 } := by
  rw [upsert_shoe] at h
  cases hcp : d.current_price with
  | none =>
    rw [hcp] at h
    exact absurd h (by simp)
  | some p =>
    rw [hcp] at h
    dsimp only [] at h
    rw [Except.ok.injEq, Prod.mk.injEq] at h
    obtain ⟨hb, hdb⟩ := h
    refine ⟨p, rfl, hb.symm, ?_⟩
    rw [← hdb, ← hb]

lemma find_shoe_after_upsert {db : DB} {d : ShoeData} {b : Bool} {db' : DB}
    (h : upsert_shoe db d = Except.ok (b, db')) :
    find_shoe db' d.product_id =
      match find_shoe db d.product_id with
      | some ex => some (shoeUpdate d db.now ex)
      | none => some (shoeInsert d db.now) := by
  obtain ⟨p, hcp, hb, rfl⟩ := upsert_shoe_ok_elim h
  rw [find_shoe]
  dsimp only []
  cases hf : find_shoe db d.product_id with
  | some ex =>
    dsimp only []
    rw [List.find?_map]
    have hpf : ((fun r : ShoeRow => r.product_id == d.product_id) ∘
        (fun r => if r.product_id == d.product_id then shoeUpdate d db.now r else r)) =
        (fun r : ShoeRow => r.product_id == d.product_id) := by
      funext r
      by_cases hr : r.product_id = d.product_id
      · simp [hr, shoeUpdate]
      · simp [hr]
    rw [hpf]
    rw [find_shoe] at hf
    rw [hf, Option.map_some']
    simp [List.find?_some hf]
  | none =>
    dsimp only []
    rw [find_shoe] at hf
    rw [List.find?_append, hf]
    rw [List.find?_cons_of_pos _ (by simp [shoeInsert])]
    rfl

/-- C1: `upsert_shoe` reports a new sale iff either no Shoe with the
listing's key existed and the listing is on sale, or the stored Shoe was
not on sale and the listing is; equivalently, for two successive upserts of
the same key the second reports a new sale iff the first listing was off
sale and the second on sale. -/
theorem C1_upsert_is_new_sale :
    (∀ (db : DB) (d : ShoeData) (b : Bool) (db' : DB),
        upsert_shoe db d = Except.ok (b, db') →
        (b = true ↔ d.is_on_sale = true ∧
          (find_shoe db d.product_id = none ∨
            ∃ ex, find_shoe db d.product_id = some ex ∧ ex.is_on_sale = false)))
  ∧ (∀ (db : DB) (L1 L2 : ShoeData) (b1 : Bool) (db1 : DB) (b2 : Bool) (db2 : DB),
        L2.product_id = L1.product_id →
        upsert_shoe db L1 = Except.ok (b1, db1) →
        upsert_shoe db1 L2 = Except.ok (b2, db2) →
        (b2 = true ↔ L1.is_on_sale = false ∧ L2.is_on_sale = true)) := by
  have hgen : ∀ (db : DB) (d : ShoeData) (b : Bool) (db' : DB),
      upsert_shoe db d = Except.ok (b, db') →
      (b = true ↔ d.is_on_sale = true ∧
        (find_shoe db d.product_id = none ∨
          ∃ ex, find_shoe db d.product_id = some ex ∧ ex.is_on_sale = false)) := by
    intro db d b db' h
    obtain ⟨p, hcp, hb, rfl⟩ := upsert_shoe_ok_elim h
    cases hf : find_shoe db d.product_id with
    | some ex =>
      rw [hf] at hb
      subst hb
      simp [Bool.and_eq_true, Bool.not_eq_true']
    | none =>
      rw [hf] at hb
      subst hb
      simp
  refine ⟨hgen, ?_⟩
  intro db L1 L2 b1 db1 b2 db2 hpid h1 h2
  have hiff := hgen _ _ _ _ h2
  rw [hpid] at hiff
  rw [find_shoe_after_upsert h1] at hiff
  cases hf : find_shoe db L1.product_id with
  | some ex =>
    rw [hf] at hiff
    dsimp only [] at hiff
    simp only [shoeUpdate] at hiff
    rw [hiff]
    simp [and_comm]
  | none =>
    rw [hf] at hiff
    dsimp only [] at hiff
    simp only [shoeInsert] at hiff
    rw [hiff]
    simp [and_comm]

/-- First listing of the C1 witness: a fresh product, not on sale. -/
def w1L1 : ShoeData :=
  { product_id := "p1", name := "Run", brand := none, website := "W", url := "u",
    current_price := some 50, original_price := some 50, discount_percentage := some 0,
    is_on_sale := false, price_hidden := false, requires_manual_review := false,
    image_url := none }

/-- Second listing of the C1 witness: the same product, now on sale. -/
def w1L2 : ShoeData :=
  { w1L1 with
    is_on_sale := true
    current_price := some 40
    discount_percentage := some 20 }

/-- Empty database for the C1 witness. -/
def w1db0 : DB :=
  { shoes := [], price_history := [], sale_alerts := [], next_alert_id := 1, now := 0 }

/-- State after the first witness upsert. -/
def w1db1 : DB :=
  match upsert_shoe w1db0 w1L1 with
  | Except.ok (_, x) => x
  | Except.error _ => w1db0

/-- State after the second witness upsert. -/
def w1db2 : DB :=
  match upsert_shoe w1db1 w1L2 with
  | Except.ok (_, x) => x
  | Except.error _ => w1db1

/-- Witness for C1: the off-sale→on-sale pair of upserts at a concrete key
reports a new sale exactly on the second call. -/
theorem C1_witness :
    w1L2.product_id = w1L1.product_id ∧
    upsert_shoe w1db0 w1L1 = Except.ok (false, w1db1) ∧
    upsert_shoe w1db1 w1L2 = Except.ok (true, w1db2) ∧
    (true = true ↔ w1L1.is_on_sale = false ∧ w1L2.is_on_sale = true) :=
  ⟨rfl, rfl, rfl,
    C1_upsert_is_new_sale.2 w1db0 w1L1 w1L2 false w1db1 true w1db2 rfl rfl rfl⟩

/-- A hidden-price listing, as the Dick's parser emits for a concealed
price: `current_price` absent, flagged for review. -/
def w2hidden : ShoeData :=
  { product_id := "Dick's Sporting Goods_X1", name := "Trail Running Shoe",
    brand := some "Nike", website := "Dick's Sporting Goods", url := "http://x/p/shoe-ABC",
    current_price := none, original_price := none, discount_percentage := some 0,
    is_on_sale := false, price_hidden := true, requires_manual_review := true,
    image_url := none }

/-- Empty database for the C2 failing input. -/
def w2db0 : DB :=
  { shoes := [], price_history := [], sale_alerts := [], next_alert_id := 1, now := 0 }

/-- C2: the claim says every upsert appends one PriceHistory row and
succeeds even when the listing's price is absent, recording a null price —
but the schema declares `price_history.price REAL NOT NULL`, so the
unconditional insert raises `IntegrityError` on an absent price and the
upsert fails instead of recording a null-price row. -/
theorem C2_null_price_upsert_fails :
    upsert_shoe w2db0 w2hidden =
      Except.error "NOT NULL constraint failed: price_history.price" := rfl

/-- C8: an upsert onto an existing Shoe replaces every mutable column with
the listing's values (needs_review included), and in the stored
needs-review scenario — stored Shoe has `needs_review = true`,
`on_sale = false`; the listing carries a resolved price,
`needs_review = false`, `on_sale = true` — the upsert succeeds, clears
`needs_review` and creates an Alert. -/
theorem C8_needs_review :
    (∀ (db : DB) (d : ShoeData) (ex : ShoeRow) (b : Bool) (db' : DB),
        find_shoe db d.product_id = some ex →
        upsert_shoe db d = Except.ok (b, db') →
        ∃ r, find_shoe db' d.product_id = some r ∧
          r.name = d.name ∧ r.brand = d.brand ∧ r.url = d.url ∧
          r.current_price = d.current_price ∧ r.original_price = d.original_price ∧
          r.discount_percentage = d.discount_percentage ∧ r.is_on_sale = d.is_on_sale ∧
          r.price_hidden = d.price_hidden ∧
          r.requires_manual_review = d.requires_manual_review ∧
          r.image_url = d.image_url)
  ∧ (∀ (db : DB) (d : ShoeData) (ex : ShoeRow) (b : Bool) (db' : DB),
        find_shoe db d.product_id = some ex →
        ex.requires_manual_review = true → ex.is_on_sale = false →
        d.current_price ≠ none → d.requires_manual_review = false → d.is_on_sale = true →
        upsert_shoe db d = Except.ok (b, db') →
        b = true ∧
        (∃ r, find_shoe db' d.product_id = some r ∧ r.requires_manual_review = false) ∧
        db'.sale_alerts = db.sale_alerts ++ [alertRow db d] ∧
        (alertRow db d).product_id = d.product_id ∧
        (alertRow db d).alert_sent = false) := by
  have hrepl : ∀ (db : DB) (d : ShoeData) (ex : ShoeRow) (b : Bool) (db' : DB),
      find_shoe db d.product_id = some ex →
      upsert_shoe db d = Except.ok (b, db') →
      find_shoe db' d.product_id = some (shoeUpdate d db.now ex) := by
    intro db d ex b db' hf h
    rw [find_shoe_after_upsert h, hf]
  constructor
  · intro db d ex b db' hf h
    exact ⟨shoeUpdate d db.now ex, hrepl db d ex b db' hf h,
      rfl, rfl, rfl, rfl, rfl, rfl, rfl, rfl, rfl, rfl⟩
  · intro db d ex b db' hf hexr hexs hdp hdr hds h
    obtain ⟨p, hcp, hb, hdb⟩ := upsert_shoe_ok_elim h
    have hbtrue : b = true := by
      rw [hb, hf]
      dsimp only []
      rw [hds, hexs]
      rfl
    subst hbtrue
    refine ⟨rfl, ⟨shoeUpdate d db.now ex, hrepl db d ex true db' hf h, hdr⟩, ?_, rfl, rfl⟩
    rw [hdb]
    rfl

/-- Stored Shoe for the C8 witness: flagged for review, not on sale. -/
def w8ex : ShoeRow :=
  { product_id := "p8", name := "Hidden", brand := none, website := "W", url := "u",
    current_price := none, original_price := none, discount_percentage := some 0,
    is_on_sale := false, price_hidden := true, requires_manual_review := true,
    last_checked := 0, first_seen := 0, image_url := none }

/-- Database holding the review-flagged Shoe for the C8 witness. -/
def w8db : DB :=
  { shoes := [w8ex], price_history := [], sale_alerts := [], next_alert_id := 1, now := 1 }

/-- Later listing for the C8 witness: resolved price, on sale, review
cleared. -/
def w8d : ShoeData :=
  { product_id := "p8", name := "Hidden", brand := none, website := "W", url := "u",
    current_price := some 60, original_price := some 80, discount_percentage := some 25,
    is_on_sale := true, price_hidden := false, requires_manual_review := false,
    image_url := none }

/-- State after the C8 witness upsert. -/
def w8db' : DB :=
  match upsert_shoe w8db w8d with
  | Except.ok (_, x) => x
  | Except.error _ => w8db

/-- Witness for C8: the needs-review scenario run at a concrete state. -/
theorem C8_witness :
    find_shoe w8db w8d.product_id = some w8ex ∧
    upsert_shoe w8db w8d = Except.ok (true, w8db') ∧
    (true = true ∧
      (∃ r, find_shoe w8db' w8d.product_id = some r ∧ r.requires_manual_review = false) ∧
      w8db'.sale_alerts = w8db.sale_alerts ++ [alertRow w8db w8d] ∧
      (alertRow w8db w8d).product_id = w8d.product_id ∧
      (alertRow w8db w8d).alert_sent = false) :=
  ⟨rfl, rfl,
    C8_needs_review.2 w8db w8d w8ex true w8db' rfl rfl rfl (by simp [w8d]) rfl rfl rfl⟩

/-- C9: updating an existing Shoe leaves its `website` and `first_seen`
columns (and its key) unchanged; only the other, mutable columns are
replaced. -/
theorem C9_update_frame :
    ∀ (db : DB) (d : ShoeData) (ex : ShoeRow) (b : Bool) (db' : DB),
      find_shoe db d.product_id = some ex →
      upsert_shoe db d = Except.ok (b, db') →
      ∃ r, find_shoe db' d.product_id = some r ∧
        r.website = ex.website ∧ r.first_seen = ex.first_seen ∧
        r.product_id = ex.product_id := by
  intro db d ex b db' hf h
  refine ⟨shoeUpdate d db.now ex, ?_, rfl, rfl, rfl⟩
  rw [find_shoe_after_upsert h, hf]

/-- Stored Shoe for the C9 witness. -/
def w9ex : ShoeRow :=
  { product_id := "p9", name := "Shoe", brand := none, website := "SiteA", url := "u",
    current_price := some 10, original_price := some 10, discount_percentage := some 0,
    is_on_sale := false, price_hidden := false, requires_manual_review := false,
    last_checked := 3, first_seen := 3, image_url := none }

/-- Database holding the C9 witness Shoe. -/
def w9db : DB :=
  { shoes := [w9ex], price_history := [], sale_alerts := [], next_alert_id := 1, now := 7 }

/-- Updating listing for the C9 witness (note the different `website`,
which the UPDATE must not propagate). -/
def w9d : ShoeData :=
  { product_id := "p9", name := "Shoe v2", brand := some "B", website := "SiteB", url := "u2",
    current_price := some 8, original_price := some 10, discount_percentage := some 20,
    is_on_sale := true, price_hidden := false, requires_manual_review := false,
    image_url := none }

/-- State after the C9 witness upsert. -/
def w9db' : DB :=
  match upsert_shoe w9db w9d with
  | Except.ok (_, x) => x
  | Except.error _ => w9db

/-- Witness for C9: the frame condition at one concrete update. -/
theorem C9_witness :
    find_shoe w9db w9d.product_id = some w9ex ∧
    upsert_shoe w9db w9d = Except.ok (true, w9db') ∧
    (∃ r, find_shoe w9db' w9d.product_id = some r ∧
      r.website = w9ex.website ∧ r.first_seen = w9ex.first_seen ∧
      r.product_id = w9ex.product_id) :=
  ⟨rfl, rfl, C9_update_frame w9db w9d w9ex true w9db' rfl rfl⟩

/-- C10: a limit of `0` is falsy in the `if limit:` guard, so
`get_active_sales` and `get_manual_review_items` omit the `LIMIT` clause
and return the entire result set, exactly as when no limit is passed; `0`
is not honored as a request for zero rows. -/
theorem C10_limit_zero (db : DB) :
    get_active_sales db (some 0) = get_active_sales db none ∧
    get_manual_review_items db (some 0) = get_manual_review_items db none :=
  ⟨rfl, rfl⟩

/-! ## `ShoeTracker.run_check`: the orchestration cycle -/

/-- The per-scraper upsert loop: upsert each listing, collecting the
listings whose upsert reported a new sale.  An upsert exception aborts the
loop — the already-committed upserts stay — and the scraper-level handler
then drops the new sales collected for this scraper, since the `extend` is
never reached.  The `Bool` reports whether the loop finished. -/
def upsert_loop (db : DB) : List ShoeData → List ShoeData × DB × Bool
  | [] => ([], db, true)
  | d :: rest =>
    match upsert_shoe db d with
    | Except.error _ => ([], db, false)
    | Except.ok (isNew, db1) =>
      let r := upsert_loop db1 rest
      ((if isNew then d :: r.1 else r.1), r.2.1, r.2.2)

/-- One scraper inside its try/except: a raised scrape contributes nothing;
a raised upsert keeps the database changes already committed but
contributes no new sales. -/
def run_one_scraper (db : DB) (scrape : Except String (List ShoeData)) :
    List ShoeData × DB :=
  match scrape with
  | Except.error _ => ([], db)
  | Except.ok shoes =>
    let r := upsert_loop db shoes
    (if r.2.2 then r.1 else [], r.2.1)

/-- Run every scraper in order, accumulating `all_new_sales`. -/
def run_scrapers (db : DB) (scrapes : List (Except String (List ShoeData))) :
    List ShoeData × DB :=
  match scrapes with
  | [] => ([], db)
  | s :: rest =>
    let r := run_one_scraper db s
    let r2 := run_scrapers r.2 rest
    (r.1 ++ r2.1, r2.2)

/-- `ShoeTracker.run_check`, database-effecting part: run all scrapers;
**only when** this cycle collected at least one new sale
(`if all_new_sales:`) fetch the unsent alerts, hand them to the notifier
and mark the first `sent_count` of them sent (`unsent_alerts[:sent_count]`).
The manual-review digest and the summary are further notifier calls that
read but never change the database. -/
def run_check (db : DB) (scrapes : List (Except String (List ShoeData)))
    (notifier : List SaleAlertRow → Nat) : DB :=
  if (run_scrapers db scrapes).1.isEmpty then (run_scrapers db scrapes).2
  else
    ((get_unsent_alerts (run_scrapers db scrapes).2).take
        (notifier (get_unsent_alerts (run_scrapers db scrapes).2))).foldl
      (fun acc a => mark_alert_sent acc a.id) (run_scrapers db scrapes).2

lemma foldl_mark (L : List SaleAlertRow) (db : DB) :
    L.foldl (fun acc a => mark_alert_sent acc a.id) db =
      { db with sale_alerts := db.sale_alerts.map (fun a =>
          if (L.map (fun x => x.id)).contains a.id then setSent db.now a else a) } := by
  induction L generalizing db with
  | nil => simp
  | cons x t ih =>
    rw [List.foldl_cons, ih]
    dsimp only [mark_alert_sent]
    rw [List.map_map]
    refine congrArg (fun l => { db with sale_alerts := l }) ?_
    refine List.map_congr_left (fun a _ => ?_)
    by_cases hx : a.id = x.id
    · by_cases ht : ((t.map (fun x => x.id)).contains a.id) = true
      · simp [Function.comp, hx, ht, setSent]
      · simp [Function.comp, hx, ht, setSent]
    · by_cases ht : ((t.map (fun x => x.id)).contains a.id) = true
      · simp [Function.comp, hx, ht]
      · simp [Function.comp, hx, ht]

/-- C3, amended: the alert-delivery step runs only in cycles that collected
at least one new sale; in such a cycle all currently unsent alerts
(including ones left over from earlier cycles) are fetched and handed to
the notifier, and exactly the first `deliveredCount` of them are marked
sent — the rest, and all alerts in a cycle with no new sales, stay
untouched. -/
theorem C3_alert_delivery (db : DB) (scrapes : List (Except String (List ShoeData)))
    (notifier : List SaleAlertRow → Nat) :
    ((run_scrapers db scrapes).1 = [] →
      run_check db scrapes notifier = (run_scrapers db scrapes).2)
  ∧ ((run_scrapers db scrapes).1 ≠ [] →
      (run_check db scrapes notifier).sale_alerts =
        (run_scrapers db scrapes).2.sale_alerts.map (fun a =>
          if (((get_unsent_alerts (run_scrapers db scrapes).2).take
                (notifier (get_unsent_alerts (run_scrapers db scrapes).2))).map
              (fun x => x.id)).contains a.id
          then setSent (run_scrapers db scrapes).2.now a
          else a)) := by
  constructor
  · intro h
    rw [run_check, if_pos (by simp [h])]
  · intro h
    rw [run_check, if_neg (by simp [List.isEmpty_iff, h]), foldl_mark]

/-- Shoe row backing the pre-existing alert of the C3 counterexample. -/
def w3shoe : ShoeRow :=
  { product_id := "p3", name := "Left Over", brand := none, website := "W", url := "u",
    current_price := some 40, original_price := some 50, discount_percentage := some 20,
    is_on_sale := true, price_hidden := false, requires_manual_review := false,
    last_checked := 0, first_seen := 0, image_url := none }

/-- An alert left undelivered by a previous cycle. -/
def w3alert : SaleAlertRow :=
  { id := 1, product_id := "p3", alert_sent := false, alert_sent_at := none,
    sale_price := some 40, original_price := some 50, discount_percentage := some 20,
    created_at := 0 }

/-- Database entering the counterexample cycle: one unsent alert, nothing
new to find. -/
def w3db : DB :=
  { shoes := [w3shoe], price_history := [], sale_alerts := [w3alert],
    next_alert_id := 2, now := 5 }

/-- C3, counterexample: a cycle that finds no new sales never hands the
leftover unsent alert to the Notifier — even against a notifier that
delivers everything it is given, the alert stays unsent after `run_check`,
contradicting the claim that every cycle retrieves all unsent alerts and
marks the delivered ones sent. -/
theorem C3_counterexample :
    (run_check w3db [] (fun l => l.length)).sale_alerts.map (fun a => a.alert_sent) =
      [false] := rfl

/-- Empty database for the second half of the C3 witness. -/
def w3dbE : DB :=
  { shoes := [], price_history := [], sale_alerts := [], next_alert_id := 1, now := 0 }

/-- A new on-sale listing for the second half of the C3 witness. -/
def w3d : ShoeData :=
  { product_id := "p3w", name := "Fresh Sale", brand := none, website := "W", url := "u",
    current_price := some 30, original_price := some 60, discount_percentage := some 50,
    is_on_sale := true, price_hidden := false, requires_manual_review := false,
    image_url := none }

/-- Witness for C3 (amended): a cycle with no new sales leaves the
database untouched, and a cycle with one new sale marks the delivered
alert sent. -/
theorem C3_witness :
    (run_check w3db [] (fun l => l.length) = (run_scrapers w3db []).2) ∧
    ((run_check w3dbE [Except.ok [w3d]] (fun l => l.length)).sale_alerts.map
        (fun a => a.alert_sent) = [true]) := by
  constructor
  · exact (C3_alert_delivery w3db [] (fun l => l.length)).1 rfl
  · rw [(C3_alert_delivery w3dbE [Except.ok [w3d]] (fun l => l.length)).2 (by decide)]
    decide

end SaleSearch
